import Mathlib

/-!
Shallow embedding of the `unprolix` derive-macro crate (`src/lib.rs`).

The crate exports three derive entry points, `constructor` (derive
`Constructor`), `getters` (derive `Getters`) and `setters` (derive
`Setters`), together with the helper `search_for_attribute`.  Each entry
point receives a parsed `DeriveInput` (type name plus `Data`), walks the
named fields of a struct in declaration order and assembles an `impl`
block of generated functions.

Modelling decisions, each tied to a line of the source:

* `search_for_attribute` (lib.rs:15-34) calls `a.parse_meta().unwrap()` on
  every attribute, so an attribute whose token content does not parse as a
  `syn::Meta` aborts with a panic.  An attribute is therefore embedded as
  `Option Meta'`: `some m` is an attribute parsing to the meta item `m`,
  `none` is an attribute on which `parse_meta` fails.  Panics are made
  explicit: every fallible entry point returns `Except GenPanic _`.
* Of a nested meta item the code reads only the head of its token stream
  (`m.to_token_stream().into_iter().next().unwrap()`, lib.rs:22): the
  leading `::` of the path, or its first segment identifier.  `NestedMeta'`
  records exactly that data (`leadingColon`, first segment); deeper
  structure is never inspected by the program and is not represented.
* Of a field's declared type the code reads only whether it is a path type
  (`Type::Path`, lib.rs:230), the first path segment and that segment's
  generic arguments (lib.rs:231-236); everything it does not inspect is
  kept as an opaque token (`GenArg.repr`, `Ty.other`).
* `quote!`/`parse_quote!` output is embedded structurally: a generated
  function is a `Fn` (name, receiver, parameters, return type, body) and
  a derive's output is an `Impl` (type name, list of functions).
-/

namespace Unprolix

/-- Path of a meta item, as far as the program inspects it: optional
leading `::`, first segment, further segments.  A parsed `syn::Path`
always has at least one segment. -/
structure SynPath where
  leadingColon : Bool
  seg0 : String
  rest : List String
deriving DecidableEq

/-- A nested meta item inside a list attribute (`syn::NestedMeta`).  The
scanner looks only at whether the item is a meta item (versus a literal)
and at the first token of the meta item's token stream: `::` when its path
has a leading colon, otherwise the first segment identifier.  That first
token is all that is recorded of a nested meta item. -/
inductive NestedMeta' where
  | meta (leadingColon : Bool) (seg0 : String)
  | lit (repr : String)
deriving DecidableEq

/-- A parsed attribute content (`syn::Meta`): a bare path, a list
`path(...)` of nested meta items, or a name-value pair `path = lit`. -/
inductive Meta' where
  | pathM (p : SynPath)
  | listM (p : SynPath) (nested : List NestedMeta')
  | nameValueM (p : SynPath) (v : String)
deriving DecidableEq

/-- Field visibility (`syn::Visibility`): `pub`, the bare `crate`
visibility, restricted forms such as `pub(crate)` / `pub(super)` /
`pub(in path)` carrying their path, or inherited (private). -/
inductive Vis where
  | public
  | crateVis
  | restricted (path : String)
  | inherited
deriving DecidableEq

/-- Opaque generic argument (`syn::GenericArgument`): the program splices
the first angle-bracketed argument verbatim and never inspects it. -/
structure GenArg where
  repr : String
deriving DecidableEq

/-- Arguments of a path segment (`syn::PathArguments`). -/
inductive PathArgs where
  | noArgs
  | angleBracketed (args : List GenArg)
  | parenthesized
deriving DecidableEq

/-- One path segment of a type path (`syn::PathSegment`). -/
structure PathSeg where
  ident : String
  arguments : PathArgs
deriving DecidableEq

/-- A field's declared type (`syn::Type`), as far as the program inspects
it: a path type with its segments, or any other type kept opaque. -/
inductive Ty where
  | path (segments : List PathSeg)
  | other (repr : String)
deriving DecidableEq

/-- A named struct field (`syn::Field` within `Fields::Named`): identifier,
visibility, attribute list, declared type.  An attribute is `some m` when
`parse_meta` succeeds with `m` and `none` when it fails. -/
structure Field where
  ident : String
  vis : Vis
  attrs : List (Option Meta')
  ty : Ty
deriving DecidableEq

/-- The `fields` of a struct (`syn::Fields`). -/
inductive FieldsShape where
  | named (fs : List Field)
  | unnamed
  | unitFields
deriving DecidableEq

/-- The `data` of a derive input (`syn::Data`). -/
inductive Data' where
  | structData (fields : FieldsShape)
  | enumData
  | unionData
deriving DecidableEq

/-- The parsed derive input (`syn::DeriveInput`): type name and data. -/
structure DeriveInput where
  ident : String
  data : Data'
deriving DecidableEq

/-- The panics the crate can raise while generating code. -/
inductive GenPanic where
  | metaUnwrap
  | iterUnwrap
  | vectorTypeExpected
  | asSliceNonPath
deriving DecidableEq

/-- One nested meta item's test, lib.rs:22-25: the item must be a meta
item whose first token is an identifier equal to `attrName`; a leading
`::` makes the first token a punct, and a literal item never matches. -/
def nestedMatches (attrName : String) : NestedMeta' → Bool
  | .meta leadingColon seg0 => !leadingColon && seg0 == attrName
  | .lit _ => false

/-- One attribute's contribution, lib.rs:20-30: only `Meta::List`
attributes are searched, and the name of the outer list path is ignored. -/
def metaScan (attrName : String) : Meta' → Bool
  | .listM _ nested => nested.any (nestedMatches attrName)
  | _ => false

/-- The attribute loop of `search_for_attribute`, lib.rs:18-31: walk the
attributes left to right keeping the flag `acc`; `a.parse_meta().unwrap()`
panics on the first attribute that fails to parse, even when the flag is
already set. -/
def searchAttrs (attrName : String) : List (Option Meta') → Bool → Except GenPanic Bool
  | [], acc => .ok acc
  | none :: _, _ => .error .metaUnwrap
  | some m :: restAttrs, acc => searchAttrs attrName restAttrs (acc || metaScan attrName m)

/-- `search_for_attribute`, lib.rs:15-34. -/
def search_for_attribute (f : Field) (attrName : String) : Except GenPanic Bool :=
  searchAttrs attrName f.attrs false

/-- A field's attributes all parse as meta items, so no scan of this field
can hit the `parse_meta().unwrap()` panic. -/
def Field.wfAttrs (f : Field) : Bool :=
  f.attrs.all Option.isSome

/-- Pure value computed by `search_for_attribute` when no attribute is
malformed: some attribute is a list one of whose nested items matches. -/
def hasDirective (f : Field) (attrName : String) : Bool :=
  f.attrs.any fun a =>
    match a with
    | some m => metaScan attrName m
    | none => false

/-- A parameter of a generated function: the constructor code turns a
field into a parameter by clearing its attributes and visibility
(lib.rs:112-114), leaving name and type. -/
structure Param where
  name : String
  ty : Ty
deriving DecidableEq

/-- Initializer expression of one field in the constructed value:
`Default::default()` (lib.rs:98) or the like-named parameter spliced
verbatim (lib.rs:108). -/
inductive InitExpr where
  | defaultCall
  | ident (name : String)
deriving DecidableEq

/-- A `syn::FieldValue` of the constructed value: member name, whether a
colon token is present (lib.rs:97 versus lib.rs:107), expression. -/
structure FieldValue where
  member : String
  colonToken : Bool
  expr : InitExpr
deriving DecidableEq

/-- Receiver of a generated function. -/
inductive SelfRef where
  | noSelf
  | refSelf
  | refMutSelf
deriving DecidableEq

/-- Return type of a generated function: none, the spliced type `T`, a
reference `&T`, a mutable reference `&mut T`, or a slice `&[A]` over a
spliced generic argument. -/
inductive Ret where
  | unit
  | plain (t : Ty)
  | ref (t : Ty)
  | refMut (t : Ty)
  | slice (arg : GenArg)
deriving DecidableEq

/-- Body of a generated function, one constructor per body shape emitted
by the crate's `quote!`/`parse_quote!` templates. -/
inductive Body where
  | returnField (f : String)
  | returnFieldRef (f : String)
  | returnFieldRefMut (f : String)
  | returnFieldAsSlice (f : String)
  | assignField (f : String) (v : String)
  | construct (tyName : String) (values : List FieldValue)
deriving DecidableEq

/-- Which field a generated function body reads or writes, if any. -/
def Body.fieldOf : Body → Option String
  | .returnField f => some f
  | .returnFieldRef f => some f
  | .returnFieldRefMut f => some f
  | .returnFieldAsSlice f => some f
  | .assignField f _ => some f
  | .construct _ _ => none

/-- A generated `pub fn`. -/
structure Fn where
  name : String
  selfRef : SelfRef
  params : List Param
  ret : Ret
  body : Body
deriving DecidableEq

/-- A generated `impl #name { ... }` block. -/
structure Impl where
  tyName : String
  fns : List Fn
deriving DecidableEq

/-- The type named by a bare identifier, as spliced for `-> #name`. -/
def selfTy (name : String) : Ty :=
  .path [⟨name, .noArgs⟩]

/-- The `pub fn new(#args) -> #name { #name { #values } }` template of
lib.rs:123-131. -/
def newFn (name : String) (ps : List Param) (vs : List FieldValue) : Fn :=
  { name := "new", selfRef := .noSelf, params := ps
    ret := .plain (selfTy name), body := .construct name vs }

/-- The field loop of `constructor`, lib.rs:86-119: for each field in
declaration order scan for `default`; a defaulted field contributes no
parameter and a `Default::default()` initializer with a colon token, any
other field contributes a like-named parameter (attributes and visibility
cleared) and a shorthand initializer. -/
def constructorArgsValues : List Field → Except GenPanic (List Param × List FieldValue)
  | [] => .ok ([], [])
  | f :: fs =>
    match search_for_attribute f "default" with
    | .error e => .error e
    | .ok d =>
      match constructorArgsValues fs with
      | .error e => .error e
      | .ok (ps, vs) =>
        if d then
          .ok (ps, ⟨f.ident, true, .defaultCall⟩ :: vs)
        else
          .ok (⟨f.ident, f.ty⟩ :: ps, ⟨f.ident, false, .ident f.ident⟩ :: vs)

/-- `constructor`, lib.rs:74-134.  On a named struct it generates `new`
from the accumulated parameters and initializers; on every other data
shape the match arm at lib.rs:120 leaves both lists empty, yet the
`quote!` at lib.rs:123 still emits `pub fn new() -> #name { #name { } }`. -/
def constructor (input : DeriveInput) : Except GenPanic Impl :=
  match input.data with
  | .structData (.named fs) =>
    match constructorArgsValues fs with
    | .error e => .error e
    | .ok (ps, vs) => .ok ⟨input.ident, [newFn input.ident ps vs]⟩
  | _ => .ok ⟨input.ident, [newFn input.ident [] []]⟩

/-- `Visibility::Public` test of lib.rs:205 and lib.rs:317: only the bare
`pub` visibility matches. -/
def isPublicVis : Vis → Bool
  | .public => true
  | _ => false

/-- The type-argument extraction of the `as_slice` branch, lib.rs:229-239:
the declared type must be a path type; take its first segment
(`.next().unwrap()`), require angle-bracketed arguments (else the panic
at lib.rs:234), and take the first argument (`.next().unwrap()`). -/
def extractSliceArg : Ty → Except GenPanic GenArg
  | .path [] => .error .iterUnwrap
  | .path (s :: _) =>
    match s.arguments with
    | .angleBracketed [] => .error .iterUnwrap
    | .angleBracketed (a :: _) => .ok a
    | _ => .error .vectorTypeExpected
  | .other _ => .error .asSliceNonPath

/-- The getter emitted for one kept field, lib.rs:213-252: scan `copy`
then `as_slice`; with `copy` return the field by value, otherwise with
`as_slice` return a slice over the extracted argument, otherwise return a
reference to the field. -/
def getterFn (f : Field) : Except GenPanic Fn :=
  match search_for_attribute f "copy" with
  | .error e => .error e
  | .ok copy =>
    match search_for_attribute f "as_slice" with
    | .error e => .error e
    | .ok asSlice =>
      if copy then
        .ok { name := f.ident, selfRef := .refSelf, params := []
              ret := .plain f.ty, body := .returnField f.ident }
      else if asSlice then
        match extractSliceArg f.ty with
        | .error e => .error e
        | .ok a =>
          .ok { name := f.ident, selfRef := .refSelf, params := []
                ret := .slice a, body := .returnFieldAsSlice f.ident }
      else
        .ok { name := f.ident, selfRef := .refSelf, params := []
              ret := .ref f.ty, body := .returnFieldRef f.ident }

/-- The fused filter and fold of `getters`, lib.rs:204-257: per field, in
declaration order, drop `pub` fields, scan `skip` and drop flagged
fields, and push the emitted getter of every kept field. -/
def getterFns : List Field → Except GenPanic (List Fn)
  | [] => .ok []
  | f :: fs =>
    if isPublicVis f.vis then getterFns fs
    else
      match search_for_attribute f "skip" with
      | .error e => .error e
      | .ok true => getterFns fs
      | .ok false =>
        match getterFn f with
        | .error e => .error e
        | .ok g =>
          match getterFns fs with
          | .error e => .error e
          | .ok gs => .ok (g :: gs)

/-- `getters`, lib.rs:189-266: on a named struct emit the accumulated
getters, on any other data shape the arm at lib.rs:258 emits the empty
block, so `impl #name { }`. -/
def getters (input : DeriveInput) : Except GenPanic Impl :=
  match input.data with
  | .structData (.named fs) =>
    match getterFns fs with
    | .error e => .error e
    | .ok gs => .ok ⟨input.ident, gs⟩
  | _ => .ok ⟨input.ident, []⟩

/-- The two mutators emitted for one kept field, lib.rs:326-342:
`set_<field>(&mut self, v: #ty)` assigning `v` into the field, then
`<field>_as_mut(&mut self) -> &mut #ty` returning a mutable reference. -/
def setterFnsFor (f : Field) : List Fn :=
  [ { name := "set_" ++ f.ident, selfRef := .refMutSelf, params := [⟨"v", f.ty⟩]
      ret := .unit, body := .assignField f.ident "v" },
    { name := f.ident ++ "_as_mut", selfRef := .refMutSelf, params := []
      ret := .refMut f.ty, body := .returnFieldRefMut f.ident } ]

/-- The fused filter and fold of `setters`, lib.rs:316-345: per field, in
declaration order, drop `pub` fields, scan `skip` and drop flagged
fields, and push both mutators of every kept field. -/
def setterFns : List Field → Except GenPanic (List Fn)
  | [] => .ok []
  | f :: fs =>
    if isPublicVis f.vis then setterFns fs
    else
      match search_for_attribute f "skip" with
      | .error e => .error e
      | .ok true => setterFns fs
      | .ok false =>
        match setterFns fs with
        | .error e => .error e
        | .ok gs => .ok (setterFnsFor f ++ gs)

/-- `setters`, lib.rs:301-354: on a named struct emit the accumulated
mutators, on any other data shape the arm at lib.rs:346 emits the empty
block. -/
def setters (input : DeriveInput) : Except GenPanic Impl :=
  match input.data with
  | .structData (.named fs) =>
    match setterFns fs with
    | .error e => .error e
    | .ok gs => .ok ⟨input.ident, gs⟩
  | _ => .ok ⟨input.ident, []⟩

/-- A field is kept by the getter and setter filters: not `pub` and not
`skip`-flagged. -/
def keepField (f : Field) : Bool :=
  !isPublicVis f.vis && !hasDirective f "skip"

/-! ### Concrete fixtures used by the examples and witnesses -/

/-- The type `u8`: a path type with a single argumentless segment. -/
def u8Ty : Ty := .path [⟨"u8", .noArgs⟩]

/-- The type `Vec<u8>`: a path type whose first segment carries one
angle-bracketed argument. -/
def vecU8Ty : Ty := .path [⟨"Vec", .angleBracketed [⟨"u8"⟩]⟩]

/-- An `#[unprolix(t1, t2, ...)]` attribute whose nested items are the
given identifiers. -/
def unprolixAttr (toks : List String) : Option Meta' :=
  some (.listM ⟨false, "unprolix", []⟩ (toks.map fun t => .meta false t))

/-! ### Scanner lemmas -/

theorem searchAttrs_ok (attrName : String) (attrs : List (Option Meta')) :
    ∀ acc : Bool, attrs.all Option.isSome = true →
      searchAttrs attrName attrs acc =
        .ok (acc || attrs.any fun a =>
          match a with
          | some m => metaScan attrName m
          | none => false) := by
  induction attrs with
  | nil => intro acc _; simp [searchAttrs]
  | cons a rest ih =>
    intro acc h
    match a with
    | none => simp at h
    | some m =>
      simp only [List.all_cons, Bool.and_eq_true] at h
      rw [searchAttrs, ih _ h.2]
      simp [Bool.or_assoc]

theorem search_ok (f : Field) (attrName : String) (h : f.wfAttrs = true) :
    search_for_attribute f attrName = .ok (hasDirective f attrName) := by
  have hh := searchAttrs_ok attrName f.attrs false h
  simpa [search_for_attribute, hasDirective] using hh

/-! ### Constructor closed form -/

theorem constructorArgsValues_ok (fs : List Field) (h : ∀ f ∈ fs, f.wfAttrs = true) :
    constructorArgsValues fs =
      .ok ((fs.filter fun f => !hasDirective f "default").map fun f => (⟨f.ident, f.ty⟩ : Param),
           fs.map fun f =>
             if hasDirective f "default" then (⟨f.ident, true, .defaultCall⟩ : FieldValue)
             else ⟨f.ident, false, .ident f.ident⟩) := by
  induction fs with
  | nil => simp [constructorArgsValues]
  | cons f fs ih =>
    have hf : f.wfAttrs = true := h f (List.mem_cons_self _ _)
    have hrest : ∀ g ∈ fs, g.wfAttrs = true := fun g hg => h g (List.mem_cons_of_mem _ hg)
    rw [constructorArgsValues, search_ok f _ hf, ih hrest]
    cases hd : hasDirective f "default" <;> simp [hd, List.filter_cons]

/-! ### Getter machinery -/

/-- Sequencing of the per-field getter over a field list, failing on the
first field whose getter fails. -/
def mapExcept (g : Field → Except GenPanic Fn) : List Field → Except GenPanic (List Fn)
  | [] => .ok []
  | f :: fs =>
    match g f with
    | .error e => .error e
    | .ok fn =>
      match mapExcept g fs with
      | .error e => .error e
      | .ok fns => .ok (fn :: fns)

theorem getterFns_eq (fs : List Field) (h : ∀ f ∈ fs, f.wfAttrs = true) :
    getterFns fs = mapExcept getterFn (fs.filter keepField) := by
  induction fs with
  | nil => simp [getterFns, mapExcept]
  | cons f fs ih =>
    have hf : f.wfAttrs = true := h f (List.mem_cons_self _ _)
    have hrest : ∀ g ∈ fs, g.wfAttrs = true := fun g hg => h g (List.mem_cons_of_mem _ hg)
    cases hp : isPublicVis f.vis with
    | true =>
      have hk : keepField f = false := by simp [keepField, hp]
      simp [getterFns, hp, List.filter_cons, hk, ih hrest]
    | false =>
      cases hs : hasDirective f "skip" with
      | true =>
        have hk : keepField f = false := by simp [keepField, hs]
        simp [getterFns, hp, search_ok f _ hf, hs, List.filter_cons, hk, ih hrest]
      | false =>
        have hk : keepField f = true := by simp [keepField, hp, hs]
        simp [getterFns, hp, search_ok f _ hf, hs, List.filter_cons, hk, ih hrest, mapExcept]

theorem getterFn_ok_shape {f : Field} {g : Fn} (h : getterFn f = .ok g) :
    g.name = f.ident ∧ g.selfRef = .refSelf ∧ g.params = [] ∧ g.body.fieldOf = some f.ident := by
  unfold getterFn at h
  repeat' split at h
  all_goals first
    | (exact Except.noConfusion h)
    | (injection h with h; subst h; exact ⟨rfl, rfl, rfl, rfl⟩)

theorem mapExcept_names {l : List Field} {gs : List Fn}
    (h : mapExcept getterFn l = .ok gs) : gs.map Fn.name = l.map Field.ident := by
  induction l generalizing gs with
  | nil => simp only [mapExcept] at h; injection h with h; subst h; simp
  | cons a l ih =>
    simp only [mapExcept] at h
    cases ha : getterFn a
    case error e => rw [ha] at h; simp at h
    case ok g =>
      rw [ha] at h
      cases hrest : mapExcept getterFn l
      case error e => rw [hrest] at h; simp at h
      case ok gs' =>
        rw [hrest] at h
        injection h with h; subst h
        simp [(getterFn_ok_shape ha).1, ih hrest]

theorem mapExcept_mem {l : List Field} {gs : List Fn} {f : Field} {g : Fn}
    (h : mapExcept getterFn l = .ok gs) (hmem : f ∈ l) (hg : getterFn f = .ok g) :
    g ∈ gs := by
  induction l generalizing gs with
  | nil => cases hmem
  | cons a l ih =>
    simp only [mapExcept] at h
    cases ha : getterFn a
    case error e => rw [ha] at h; simp at h
    case ok g' =>
      rw [ha] at h
      cases hrest : mapExcept getterFn l
      case error e => rw [hrest] at h; simp at h
      case ok gs' =>
        rw [hrest] at h
        injection h with h; subst h
        rcases List.mem_cons.mp hmem with rfl | hmem'
        · rw [ha] at hg; injection hg with hg; subst hg; exact List.mem_cons_self _ _
        · exact List.mem_cons_of_mem _ (ih hrest hmem')

theorem optStr_beq_some (a b : String) : ((some a : Option String) == some b) = (a == b) :=
  rfl

theorem mapExcept_filter (k : String) {l : List Field} {gs : List Fn}
    (h : mapExcept getterFn l = .ok gs) :
    mapExcept getterFn (l.filter fun f => f.ident == k) =
      .ok (gs.filter fun g => g.body.fieldOf == some k) := by
  induction l generalizing gs with
  | nil => simp only [mapExcept] at h; injection h with h; subst h; simp [mapExcept]
  | cons a l ih =>
    simp only [mapExcept] at h
    cases ha : getterFn a
    case error e => rw [ha] at h; simp at h
    case ok g =>
      rw [ha] at h
      cases hrest : mapExcept getterFn l
      case error e => rw [hrest] at h; simp at h
      case ok gs' =>
        rw [hrest] at h
        injection h with h; subst h
        have hbody : g.body.fieldOf = some a.ident := (getterFn_ok_shape ha).2.2.2
        rw [List.filter_cons, List.filter_cons]
        cases hk : a.ident == k with
        | true =>
          have : (g.body.fieldOf == some k) = true := by
            rw [hbody, optStr_beq_some, hk]
          simp only [hk, this, if_true, mapExcept, ha, ih hrest]
        | false =>
          have : (g.body.fieldOf == some k) = false := by
            rw [hbody, optStr_beq_some, hk]
          simp only [hk, this, if_false, Bool.false_eq_true, ih hrest]

theorem mapExcept_error {l : List Field} {f : Field}
    (hmem : f ∈ l) (hf : ∀ g, getterFn f ≠ .ok g) :
    ∀ gs, mapExcept getterFn l ≠ .ok gs := by
  induction l with
  | nil => cases hmem
  | cons a l ih =>
    intro gs h
    simp only [mapExcept] at h
    cases ha : getterFn a
    case error e => rw [ha] at h; simp at h
    case ok g =>
      rw [ha] at h
      cases hrest : mapExcept getterFn l
      case error e => rw [hrest] at h; simp at h
      case ok gs' =>
        rcases List.mem_cons.mp hmem with rfl | hmem'
        · exact hf g ha
        · exact ih hmem' gs' hrest

/-! ### Setter machinery -/

theorem setterFns_ok (fs : List Field) (h : ∀ f ∈ fs, f.wfAttrs = true) :
    setterFns fs = .ok ((fs.filter keepField).map setterFnsFor).flatten := by
  induction fs with
  | nil => simp [setterFns]
  | cons f fs ih =>
    have hf : f.wfAttrs = true := h f (List.mem_cons_self _ _)
    have hrest : ∀ g ∈ fs, g.wfAttrs = true := fun g hg => h g (List.mem_cons_of_mem _ hg)
    cases hp : isPublicVis f.vis with
    | true =>
      have hk : keepField f = false := by simp [keepField, hp]
      simp [setterFns, hp, List.filter_cons, hk, ih hrest]
    | false =>
      cases hs : hasDirective f "skip" with
      | true =>
        have hk : keepField f = false := by simp [keepField, hs]
        simp [setterFns, hp, search_ok f _ hf, hs, List.filter_cons, hk, ih hrest]
      | false =>
        have hk : keepField f = true := by simp [keepField, hp, hs]
        simp [setterFns, hp, search_ok f _ hf, hs, List.filter_cons, hk, ih hrest]

theorem setterFnsFor_filter (x : Field) (k : String) :
    ((setterFnsFor x).filter fun g => g.body.fieldOf == some k) =
      if x.ident == k then setterFnsFor x else [] := by
  cases hk : x.ident == k with
  | true => simp [setterFnsFor, Body.fieldOf, optStr_beq_some, hk]
  | false => simp [setterFnsFor, Body.fieldOf, optStr_beq_some, hk]

theorem join_map_filter (k : String) (l : List Field) :
    (((l.map setterFnsFor).flatten).filter fun g => g.body.fieldOf == some k) =
      ((l.filter fun x => x.ident == k).map setterFnsFor).flatten := by
  induction l with
  | nil => simp
  | cons a l ih =>
    rw [List.map_cons, List.flatten_cons, List.filter_append, ih, setterFnsFor_filter,
      List.filter_cons]
    cases hk : a.ident == k with
    | true => simp
    | false => simp

theorem setters_names_eq (l : List Field) :
    ((l.map setterFnsFor).flatten).map Fn.name =
      (l.map fun f => ["set_" ++ f.ident, f.ident ++ "_as_mut"]).flatten := by
  induction l with
  | nil => simp
  | cons a l ih => simp [setterFnsFor, ih]

theorem join_map_infix {l : List Field} {f : Field} (hmem : f ∈ l) :
    ∃ pre post, (l.map setterFnsFor).flatten = pre ++ setterFnsFor f ++ post := by
  induction l with
  | nil => cases hmem
  | cons a l ih =>
    rcases List.mem_cons.mp hmem with rfl | hmem'
    · exact ⟨[], (l.map setterFnsFor).flatten, by simp⟩
    · obtain ⟨pre, post, hpp⟩ := ih hmem'
      exact ⟨setterFnsFor a ++ pre, post, by simp [hpp]⟩

/-! ### Uniqueness of a field among distinct identifiers -/

theorem filter_ident_eq_single {fs : List Field} {f : Field}
    (hnd : (fs.map Field.ident).Nodup) (hmem : f ∈ fs) :
    (fs.filter fun x => x.ident == f.ident) = [f] := by
  induction fs with
  | nil => cases hmem
  | cons a l ih =>
    rw [List.map_cons, List.nodup_cons] at hnd
    rcases List.mem_cons.mp hmem with rfl | hmem'
    · rw [List.filter_cons_of_pos (by simp)]
      have hnil : (l.filter fun x => x.ident == f.ident) = [] := by
        rw [List.filter_eq_nil_iff]
        intro x hx hbeq
        exact hnd.1 (List.mem_map.mpr ⟨x, hx, (eq_of_beq hbeq)⟩)
      rw [hnil]
    · have hne : (a.ident == f.ident) = false := by
        rcases hb : a.ident == f.ident with _ | _
        · rfl
        · exact absurd (List.mem_map.mpr ⟨f, hmem', (eq_of_beq hb).symm⟩) hnd.1
      rw [List.filter_cons_of_neg (by simp [hne]), ih hnd.2 hmem']

/-! ### Mid-level characterizations of the three entry points -/

theorem getters_ok_fns {inp : DeriveInput} {fs : List Field} {impl : Impl}
    (hd : inp.data = .structData (.named fs)) (hwf : ∀ f ∈ fs, f.wfAttrs = true)
    (hok : getters inp = .ok impl) :
    impl.tyName = inp.ident ∧ mapExcept getterFn (fs.filter keepField) = .ok impl.fns := by
  obtain ⟨name, data⟩ := inp
  have hd' : data = Data'.structData (.named fs) := hd
  subst hd'
  simp only [getters] at hok
  rw [getterFns_eq fs hwf] at hok
  cases hm : mapExcept getterFn (fs.filter keepField)
  case error e => rw [hm] at hok; simp at hok
  case ok gs =>
    rw [hm] at hok
    injection hok with hok
    subst hok
    exact ⟨rfl, rfl⟩

theorem setters_ok_impl {inp : DeriveInput} {fs : List Field}
    (hd : inp.data = .structData (.named fs)) (hwf : ∀ f ∈ fs, f.wfAttrs = true) :
    setters inp = .ok ⟨inp.ident, ((fs.filter keepField).map setterFnsFor).flatten⟩ := by
  obtain ⟨name, data⟩ := inp
  have hd' : data = Data'.structData (.named fs) := hd
  subst hd'
  simp only [setters, setterFns_ok fs hwf]

theorem constructor_ok_impl {inp : DeriveInput} {fs : List Field}
    (hd : inp.data = .structData (.named fs)) (hwf : ∀ f ∈ fs, f.wfAttrs = true) :
    constructor inp = .ok ⟨inp.ident,
      [newFn inp.ident
        ((fs.filter fun f => !hasDirective f "default").map fun f => (⟨f.ident, f.ty⟩ : Param))
        (fs.map fun f =>
          if hasDirective f "default" then (⟨f.ident, true, .defaultCall⟩ : FieldValue)
          else ⟨f.ident, false, .ident f.ident⟩)]⟩ := by
  obtain ⟨name, data⟩ := inp
  have hd' : data = Data'.structData (.named fs) := hd
  subst hd'
  simp only [constructor, constructorArgsValues_ok fs hwf]

theorem getters_filter_kept {inp : DeriveInput} {fs : List Field} {f : Field} {impl : Impl}
    (hd : inp.data = .structData (.named fs)) (hwf : ∀ g ∈ fs, g.wfAttrs = true)
    (hnd : (fs.map Field.ident).Nodup) (hmem : f ∈ fs) (hk : keepField f = true)
    (hok : getters inp = .ok impl) :
    ∃ g, getterFn f = .ok g ∧ g.name = f.ident ∧
      (impl.fns.filter fun g => g.body.fieldOf == some f.ident) = [g] := by
  obtain ⟨-, hm⟩ := getters_ok_fns hd hwf hok
  have hflt := mapExcept_filter f.ident hm
  rw [List.filter_comm, filter_ident_eq_single hnd hmem] at hflt
  have hf1 : ([f].filter keepField) = [f] := by simp [hk]
  rw [hf1] at hflt
  simp only [mapExcept] at hflt
  cases hg : getterFn f
  case error e => rw [hg] at hflt; simp at hflt
  case ok g =>
    rw [hg] at hflt
    injection hflt with hflt
    exact ⟨g, rfl, (getterFn_ok_shape hg).1, hflt.symm⟩

theorem getters_filter_dropped {inp : DeriveInput} {fs : List Field} {f : Field} {impl : Impl}
    (hd : inp.data = .structData (.named fs)) (hwf : ∀ g ∈ fs, g.wfAttrs = true)
    (hnd : (fs.map Field.ident).Nodup) (hmem : f ∈ fs) (hk : keepField f = false)
    (hok : getters inp = .ok impl) :
    (impl.fns.filter fun g => g.body.fieldOf == some f.ident) = [] := by
  obtain ⟨-, hm⟩ := getters_ok_fns hd hwf hok
  have hflt := mapExcept_filter f.ident hm
  rw [List.filter_comm, filter_ident_eq_single hnd hmem] at hflt
  have hf1 : ([f].filter keepField) = [] := by simp [hk]
  rw [hf1] at hflt
  simp only [mapExcept] at hflt
  injection hflt with hflt
  exact hflt.symm

theorem setters_filter_kept {fs : List Field} {f : Field}
    (hnd : (fs.map Field.ident).Nodup) (hmem : f ∈ fs) (hk : keepField f = true) :
    ((((fs.filter keepField).map setterFnsFor).flatten).filter
        fun g => g.body.fieldOf == some f.ident) = setterFnsFor f := by
  rw [join_map_filter, List.filter_comm, filter_ident_eq_single hnd hmem]
  simp [hk]

theorem setters_filter_dropped {fs : List Field} {f : Field}
    (hnd : (fs.map Field.ident).Nodup) (hmem : f ∈ fs) (hk : keepField f = false) :
    ((((fs.filter keepField).map setterFnsFor).flatten).filter
        fun g => g.body.fieldOf == some f.ident) = [] := by
  rw [join_map_filter, List.filter_comm, filter_ident_eq_single hnd hmem]
  simp [hk]

theorem getters_error_of_bad {inp : DeriveInput} {fs : List Field} {f : Field}
    (hd : inp.data = .structData (.named fs)) (hwf : ∀ g ∈ fs, g.wfAttrs = true)
    (hmem : f ∈ fs) (hk : keepField f = true)
    (hcopy : hasDirective f "copy" = false) (hslice : hasDirective f "as_slice" = true)
    {e : GenPanic} (hex : extractSliceArg f.ty = .error e) :
    ∃ e', getters inp = .error e' := by
  have hfwf : f.wfAttrs = true := hwf f hmem
  have hbad : ∀ g, getterFn f ≠ .ok g := by
    intro g hg
    simp [getterFn, search_ok f _ hfwf, hcopy, hslice, hex] at hg
  have herr := mapExcept_error (List.mem_filter.mpr ⟨hmem, hk⟩) hbad
  cases hge : getterFns fs
  case ok gs =>
    rw [getterFns_eq fs hwf] at hge
    exact absurd hge (herr gs)
  case error e' =>
    refine ⟨e', ?_⟩
    obtain ⟨name, data⟩ := inp
    have hd' : data = Data'.structData (.named fs) := hd
    subst hd'
    simp only [getters, hge]

/-- The type shapes from which the `as_slice` extraction can reach an
angle-bracketed argument list: a path type whose first segment carries
one. -/
def sliceExtractable : Ty → Bool
  | .path (s :: _) =>
    match s.arguments with
    | .angleBracketed _ => true
    | _ => false
  | _ => false

theorem extract_error_of_not_extractable {t : Ty} (h : sliceExtractable t = false) :
    ∃ e, extractSliceArg t = .error e := by
  cases t with
  | other r => exact ⟨.asSliceNonPath, rfl⟩
  | path segs =>
    cases segs with
    | nil => exact ⟨.iterUnwrap, rfl⟩
    | cons s rest =>
      cases hs : s.arguments with
      | noArgs => exact ⟨.vectorTypeExpected, by simp [extractSliceArg, hs]⟩
      | parenthesized => exact ⟨.vectorTypeExpected, by simp [extractSliceArg, hs]⟩
      | angleBracketed args => simp [sliceExtractable, hs] at h

theorem length_filter_not (fs : List Field) (p : Field → Bool) :
    (fs.filter fun f => !p f).length = fs.length - (fs.filter p).length := by
  induction fs with
  | nil => rfl
  | cons a l ih =>
    have hle := List.length_filter_le p l
    cases hp : p a <;> simp [List.filter_cons, hp, ih] <;> omega

theorem setters_impl_fns {inp : DeriveInput} {fs : List Field} {impl : Impl}
    (hd : inp.data = .structData (.named fs)) (hwf : ∀ f ∈ fs, f.wfAttrs = true)
    (hok : setters inp = .ok impl) :
    impl = ⟨inp.ident, ((fs.filter keepField).map setterFnsFor).flatten⟩ := by
  rw [setters_ok_impl hd hwf] at hok
  injection hok with hok
  exact hok.symm

/-! ### Fixtures: the record types of the specification's scenarios -/

/-- Scenario 1 of the specification: `Point { x: u8, y: u8 #[unprolix(default)] }`. -/
def pointFields : List Field :=
  [⟨"x", .inherited, [], u8Ty⟩, ⟨"y", .inherited, [unprolixAttr ["default"]], u8Ty⟩]

def pointInput : DeriveInput := ⟨"Point", .structData (.named pointFields)⟩

/-- Scenario 2 of the specification:
`Wrapper { #[unprolix(skip)] secret: u8, #[unprolix(as_slice)] data: Vec<u8> }`. -/
def wrapperFields : List Field :=
  [⟨"secret", .inherited, [unprolixAttr ["skip"]], u8Ty⟩,
   ⟨"data", .inherited, [unprolixAttr ["as_slice"]], vecU8Ty⟩]

def wrapperInput : DeriveInput := ⟨"Wrapper", .structData (.named wrapperFields)⟩

/-- Scenario 3 of the specification: `Counter { count: u8 }`. -/
def counterField : Field := ⟨"count", .inherited, [], u8Ty⟩

def counterInput : DeriveInput := ⟨"Counter", .structData (.named [counterField])⟩

/-- A struct whose single field carries `as_slice` (and nothing else) at
the bare scalar type `u8`. -/
def badSliceField : Field := ⟨"a", .inherited, [unprolixAttr ["as_slice"]], u8Ty⟩

def badSliceInput : DeriveInput := ⟨"Bad", .structData (.named [badSliceField])⟩

/-- A struct whose single field carries BOTH `copy` and `as_slice` at the
bare scalar type `u8`. -/
def copySliceField : Field := ⟨"a", .inherited, [unprolixAttr ["copy", "as_slice"]], u8Ty⟩

def copySliceInput : DeriveInput := ⟨"CS", .structData (.named [copySliceField])⟩

/-! ### The claims -/

/-- C1: for a plain named-field record (all of whose attributes parse as
meta items), Constructor generation produces exactly one function `new`
whose parameter list is exactly the non-defaulted fields in declaration
order, each contributing its name and declared type, and whose
constructed value's initializer list covers every field in declaration
order, a defaulted field initialized with `Default::default()` and every
other field with the like-named parameter; with N fields of which k are
defaulted, the parameter count is N − k. -/
theorem C1_constructor_new (inp : DeriveInput) (fs : List Field)
    (hd : inp.data = .structData (.named fs)) (hwf : ∀ f ∈ fs, f.wfAttrs = true) :
    constructor inp = .ok ⟨inp.ident,
      [newFn inp.ident
        ((fs.filter fun f => !hasDirective f "default").map fun f => (⟨f.ident, f.ty⟩ : Param))
        (fs.map fun f =>
          if hasDirective f "default" then (⟨f.ident, true, .defaultCall⟩ : FieldValue)
          else ⟨f.ident, false, .ident f.ident⟩)]⟩ ∧
    ((fs.filter fun f => !hasDirective f "default").map
        fun f => (⟨f.ident, f.ty⟩ : Param)).length
      = fs.length - (fs.filter fun f => hasDirective f "default").length := by
  refine ⟨constructor_ok_impl hd hwf, ?_⟩
  rw [List.length_map, length_filter_not]

/-- Witness for C1 at scenario 1: `new(x: u8)` constructing
`Point { x, y: Default::default() }`. -/
theorem C1_witness :
    constructor pointInput = .ok ⟨"Point",
      [newFn "Point" [⟨"x", u8Ty⟩] [⟨"x", false, .ident "x"⟩, ⟨"y", true, .defaultCall⟩]]⟩ := by
  have h := (C1_constructor_new pointInput pointFields rfl (by decide)).1
  rw [h]
  rfl

/-- C2 counterexample: requesting Constructor on an enum yields a fragment
containing ONE generated function (a nullary `new`), not an empty fragment
with zero functions as the claim states. -/
theorem C2_counterexample :
    (constructor ⟨"E", .enumData⟩).map (fun i => i.fns.length) = .ok 1 ∧
    constructor ⟨"E", .enumData⟩ = .ok ⟨"E", [newFn "E" [] []]⟩ :=
  ⟨rfl, rfl⟩

/-- C2 (amended): on an input that is not a plain named-field record,
Getters and Setters each return an empty implementation fragment with zero
generated functions and raise no error, while Constructor — instead of an
empty fragment — still emits the single function `new` with an empty
parameter list and an empty initializer list, and raises no error. -/
theorem C2_nonrecord_fragments (inp : DeriveInput)
    (h : ∀ fs, inp.data ≠ .structData (.named fs)) :
    getters inp = .ok ⟨inp.ident, []⟩ ∧ setters inp = .ok ⟨inp.ident, []⟩ ∧
    constructor inp = .ok ⟨inp.ident, [newFn inp.ident [] []]⟩ := by
  obtain ⟨name, data⟩ := inp
  cases data with
  | structData fsh =>
    cases fsh with
    | named fs => exact absurd rfl (h fs)
    | unnamed => exact ⟨rfl, rfl, rfl⟩
    | unitFields => exact ⟨rfl, rfl, rfl⟩
  | enumData => exact ⟨rfl, rfl, rfl⟩
  | unionData => exact ⟨rfl, rfl, rfl⟩

/-- Witness for C2 (amended) at an enum input. -/
theorem C2_witness :
    getters ⟨"E", .enumData⟩ = .ok ⟨"E", []⟩ ∧
    setters ⟨"E", .enumData⟩ = .ok ⟨"E", []⟩ ∧
    constructor ⟨"E", .enumData⟩ = .ok ⟨"E", [newFn "E" [] []]⟩ :=
  C2_nonrecord_fragments ⟨"E", .enumData⟩ (fun _ h => Data'.noConfusion h)

/-- C3 counterexample: a non-public, non-skip field carrying `as_slice`
whose declared type is the bare scalar `u8` — but which also carries
`copy` — does NOT abort Getters: copy takes priority and the copy-shape
accessor is emitted, falsifying the claim's unconditional fatal abort. -/
theorem C3_counterexample :
    hasDirective copySliceField "as_slice" = true ∧
    isPublicVis copySliceField.vis = false ∧
    hasDirective copySliceField "skip" = false ∧
    sliceExtractable copySliceField.ty = false ∧
    getters copySliceInput = .ok ⟨"CS",
      [{ name := "a", selfRef := .refSelf, params := [], ret := .plain u8Ty,
         body := .returnField "a" }]⟩ :=
  ⟨rfl, rfl, rfl, rfl, rfl⟩

/-- C3 (amended, adding "not carrying Copy", which takes priority): for a
non-public, non-skip field carrying `as_slice` and not `copy`: if its
declared type is not a path type whose first segment carries an
angle-bracketed argument list, Getters aborts with a panic and produces no
fragment; if its declared type is a container path `C<T, ...>`, the output
contains a read accessor for the field returning a slice over `T` whose
body returns the field viewed as a slice. -/
theorem C3_as_slice :
    (∀ (inp : DeriveInput) (fs : List Field) (f : Field),
       inp.data = .structData (.named fs) → (∀ g ∈ fs, g.wfAttrs = true) →
       f ∈ fs → keepField f = true →
       hasDirective f "copy" = false → hasDirective f "as_slice" = true →
       sliceExtractable f.ty = false →
       ∃ e, getters inp = .error e) ∧
    (∀ (inp : DeriveInput) (fs : List Field) (f : Field) (impl : Impl)
       (cident : String) (t0 : GenArg) (targs : List GenArg) (srest : List PathSeg),
       inp.data = .structData (.named fs) → (∀ g ∈ fs, g.wfAttrs = true) →
       f ∈ fs → keepField f = true →
       hasDirective f "copy" = false → hasDirective f "as_slice" = true →
       f.ty = .path (⟨cident, .angleBracketed (t0 :: targs)⟩ :: srest) →
       getters inp = .ok impl →
       ({ name := f.ident, selfRef := .refSelf, params := [], ret := .slice t0,
          body := .returnFieldAsSlice f.ident } : Fn) ∈ impl.fns) := by
  constructor
  · intro inp fs f hd hwf hmem hk hcopy hslice hbad
    obtain ⟨e, he⟩ := extract_error_of_not_extractable hbad
    exact getters_error_of_bad hd hwf hmem hk hcopy hslice he
  · intro inp fs f impl cident t0 targs srest hd hwf hmem hk hcopy hslice hty hok
    obtain ⟨-, hm⟩ := getters_ok_fns hd hwf hok
    have hg : getterFn f = .ok
        { name := f.ident, selfRef := .refSelf, params := [], ret := .slice t0,
          body := .returnFieldAsSlice f.ident } := by
      simp [getterFn, search_ok f "copy" (hwf f hmem), search_ok f "as_slice" (hwf f hmem),
        hcopy, hslice, hty, extractSliceArg]
    exact mapExcept_mem hm (List.mem_filter.mpr ⟨hmem, hk⟩) hg

/-- The slice accessor generated for scenario 2's `data` field. -/
def dataSliceGetter : Fn :=
  { name := "data", selfRef := .refSelf, params := [], ret := .slice ⟨"u8"⟩,
    body := .returnFieldAsSlice "data" }

/-- Witness for C3 (amended): the bare-`as_slice` scalar field aborts
Getters; scenario 2's `data: Vec<u8>` field receives the slice accessor. -/
theorem C3_witness :
    (∃ e, getters badSliceInput = .error e) ∧
    dataSliceGetter ∈ (⟨"Wrapper", [dataSliceGetter]⟩ : Impl).fns := by
  constructor
  · exact C3_as_slice.1 badSliceInput [badSliceField] badSliceField
      rfl (by decide) (by decide) (by decide) (by decide) (by decide) (by decide)
  · exact C3_as_slice.2 wrapperInput wrapperFields
      ⟨"data", .inherited, [unprolixAttr ["as_slice"]], vecU8Ty⟩
      ⟨"Wrapper", [dataSliceGetter]⟩ "Vec" ⟨"u8"⟩ [] []
      rfl (by decide) (by decide) (by decide) (by decide) (by decide) rfl rfl

/-- C4: the read accessor's shape is selected by directive priority
Copy > AsSlice > default.  With `copy` present (even together with
`as_slice`) the accessor returns the field's declared type by value; with
neither `copy` nor `as_slice` it returns a borrowed reference to the
declared type and its body returns a reference to the field; the two
return shapes are distinct, so otherwise-identical fields differing only
in `copy` get accessors differing in return shape. -/
theorem C4_shape_priority :
    (∀ (inp : DeriveInput) (fs : List Field) (f : Field) (impl : Impl),
       inp.data = .structData (.named fs) → (∀ g ∈ fs, g.wfAttrs = true) →
       f ∈ fs → keepField f = true → hasDirective f "copy" = true →
       getters inp = .ok impl →
       ({ name := f.ident, selfRef := .refSelf, params := [], ret := .plain f.ty,
          body := .returnField f.ident } : Fn) ∈ impl.fns) ∧
    (∀ (inp : DeriveInput) (fs : List Field) (f : Field) (impl : Impl),
       inp.data = .structData (.named fs) → (∀ g ∈ fs, g.wfAttrs = true) →
       f ∈ fs → keepField f = true →
       hasDirective f "copy" = false → hasDirective f "as_slice" = false →
       getters inp = .ok impl →
       ({ name := f.ident, selfRef := .refSelf, params := [], ret := .ref f.ty,
          body := .returnFieldRef f.ident } : Fn) ∈ impl.fns) ∧
    (∀ t : Ty, Ret.plain t ≠ Ret.ref t) := by
  refine ⟨?_, ?_, fun t h => Ret.noConfusion h⟩
  · intro inp fs f impl hd hwf hmem hk hcopy hok
    obtain ⟨-, hm⟩ := getters_ok_fns hd hwf hok
    have hg : getterFn f = .ok
        { name := f.ident, selfRef := .refSelf, params := [], ret := .plain f.ty,
          body := .returnField f.ident } := by
      simp [getterFn, search_ok f "copy" (hwf f hmem), search_ok f "as_slice" (hwf f hmem),
        hcopy]
    exact mapExcept_mem hm (List.mem_filter.mpr ⟨hmem, hk⟩) hg
  · intro inp fs f impl hd hwf hmem hk hcopy hslice hok
    obtain ⟨-, hm⟩ := getters_ok_fns hd hwf hok
    have hg : getterFn f = .ok
        { name := f.ident, selfRef := .refSelf, params := [], ret := .ref f.ty,
          body := .returnFieldRef f.ident } := by
      simp [getterFn, search_ok f "copy" (hwf f hmem), search_ok f "as_slice" (hwf f hmem),
        hcopy, hslice]
    exact mapExcept_mem hm (List.mem_filter.mpr ⟨hmem, hk⟩) hg

/-- A two-field struct whose fields differ only in the `copy` directive. -/
def cpFieldA : Field := ⟨"a", .inherited, [unprolixAttr ["copy"]], u8Ty⟩

def cpFieldB : Field := ⟨"b", .inherited, [], u8Ty⟩

def copyPairInput : DeriveInput := ⟨"P2", .structData (.named [cpFieldA, cpFieldB])⟩

def cpGetterA : Fn :=
  { name := "a", selfRef := .refSelf, params := [], ret := .plain u8Ty,
    body := .returnField "a" }

def cpGetterB : Fn :=
  { name := "b", selfRef := .refSelf, params := [], ret := .ref u8Ty,
    body := .returnFieldRef "b" }

/-- Witness for C4: on `P2 { #[unprolix(copy)] a: u8, b: u8 }` the `a`
accessor returns `u8` by value and the `b` accessor returns `&u8`. -/
theorem C4_witness :
    cpGetterA ∈ (⟨"P2", [cpGetterA, cpGetterB]⟩ : Impl).fns ∧
    cpGetterB ∈ (⟨"P2", [cpGetterA, cpGetterB]⟩ : Impl).fns := by
  constructor
  · exact C4_shape_priority.1 copyPairInput [cpFieldA, cpFieldB] cpFieldA
      ⟨"P2", [cpGetterA, cpGetterB]⟩ rfl (by decide) (by decide) (by decide) (by decide) rfl
  · exact C4_shape_priority.2.1 copyPairInput [cpFieldA, cpFieldB] cpFieldB
      ⟨"P2", [cpGetterA, cpGetterB]⟩ rfl (by decide) (by decide) (by decide) (by decide)
      (by decide) rfl

/-- C5: accessors and mutators are generated for a field exactly when it
is non-public and not skip-flagged.  A public or skip-flagged field
receives no generated function touching it from Getters or Setters; every
other field receives exactly one read accessor, named like the field, and
exactly two write-accessor functions `set_<field>` and `<field>_as_mut`
(field identifiers assumed distinct, as in any real struct; generation
assumed to return a fragment). -/
theorem C5_generated_iff_kept :
    (∀ (inp : DeriveInput) (fs : List Field) (f : Field),
       inp.data = .structData (.named fs) → (∀ g ∈ fs, g.wfAttrs = true) →
       (fs.map Field.ident).Nodup → f ∈ fs →
       (isPublicVis f.vis = true ∨ hasDirective f "skip" = true) →
       (∀ impl, getters inp = .ok impl →
          (impl.fns.filter fun g => g.body.fieldOf == some f.ident) = []) ∧
       (∀ impl, setters inp = .ok impl →
          (impl.fns.filter fun g => g.body.fieldOf == some f.ident) = [])) ∧
    (∀ (inp : DeriveInput) (fs : List Field) (f : Field),
       inp.data = .structData (.named fs) → (∀ g ∈ fs, g.wfAttrs = true) →
       (fs.map Field.ident).Nodup → f ∈ fs →
       isPublicVis f.vis = false → hasDirective f "skip" = false →
       (∀ impl, getters inp = .ok impl →
          (impl.fns.filter fun g => g.body.fieldOf == some f.ident).map Fn.name = [f.ident]) ∧
       (∀ impl, setters inp = .ok impl →
          (impl.fns.filter fun g => g.body.fieldOf == some f.ident).map Fn.name
            = ["set_" ++ f.ident, f.ident ++ "_as_mut"])) := by
  constructor
  · intro inp fs f hd hwf hnd hmem hdrop
    have hk : keepField f = false := by
      rcases hdrop with h | h <;> simp [keepField, h]
    constructor
    · intro impl hok
      exact getters_filter_dropped hd hwf hnd hmem hk hok
    · intro impl hok
      rw [setters_impl_fns hd hwf hok]
      exact setters_filter_dropped hnd hmem hk
  · intro inp fs f hd hwf hnd hmem hpub hskip
    have hk : keepField f = true := by simp [keepField, hpub, hskip]
    constructor
    · intro impl hok
      obtain ⟨g, _, hname, hfilter⟩ := getters_filter_kept hd hwf hnd hmem hk hok
      rw [hfilter, List.map_cons, List.map_nil, hname]
    · intro impl hok
      rw [setters_impl_fns hd hwf hok]
      have h1 : (((((fs.filter keepField).map setterFnsFor).flatten).filter
          fun g => g.body.fieldOf == some f.ident)) = setterFnsFor f :=
        setters_filter_kept hnd hmem hk
      calc ((⟨inp.ident, ((fs.filter keepField).map setterFnsFor).flatten⟩ : Impl).fns.filter
              fun g => g.body.fieldOf == some f.ident).map Fn.name
          = (setterFnsFor f).map Fn.name := by rw [h1]
        _ = ["set_" ++ f.ident, f.ident ++ "_as_mut"] := rfl

/-- A struct mixing a `pub` field, a skip-flagged field and a plain
field. -/
def mixFieldP : Field := ⟨"p", .public, [], u8Ty⟩

def mixFieldS : Field := ⟨"s", .inherited, [unprolixAttr ["skip"]], u8Ty⟩

def mixFieldN : Field := ⟨"n", .inherited, [], u8Ty⟩

def mixedInput : DeriveInput := ⟨"M", .structData (.named [mixFieldP, mixFieldS, mixFieldN])⟩

def mixGetterImpl : Impl :=
  ⟨"M", [{ name := "n", selfRef := .refSelf, params := [], ret := .ref u8Ty,
           body := .returnFieldRef "n" }]⟩

def mixSetterImpl : Impl :=
  ⟨"M", [{ name := "set_n", selfRef := .refMutSelf, params := [⟨"v", u8Ty⟩], ret := .unit,
           body := .assignField "n" "v" },
         { name := "n_as_mut", selfRef := .refMutSelf, params := [], ret := .refMut u8Ty,
           body := .returnFieldRefMut "n" }]⟩

/-- Witness for C5 on `M { pub p: u8, #[unprolix(skip)] s: u8, n: u8 }`:
no function touches `p`, one getter `n` and the two setters for `n`. -/
theorem C5_witness :
    (mixGetterImpl.fns.filter fun g => g.body.fieldOf == some "p") = [] ∧
    ((mixGetterImpl.fns.filter fun g => g.body.fieldOf == some "n").map Fn.name = ["n"]) ∧
    ((mixSetterImpl.fns.filter fun g => g.body.fieldOf == some "n").map Fn.name
      = ["set_n", "n_as_mut"]) := by
  refine ⟨?_, ?_, ?_⟩
  · exact (C5_generated_iff_kept.1 mixedInput [mixFieldP, mixFieldS, mixFieldN] mixFieldP
      rfl (by decide) (by decide) (by decide) (Or.inl (by decide))).1 mixGetterImpl rfl
  · exact (C5_generated_iff_kept.2 mixedInput [mixFieldP, mixFieldS, mixFieldN] mixFieldN
      rfl (by decide) (by decide) (by decide) (by decide) (by decide)).1 mixGetterImpl rfl
  · exact (C5_generated_iff_kept.2 mixedInput [mixFieldP, mixFieldS, mixFieldN] mixFieldN
      rfl (by decide) (by decide) (by decide) (by decide) (by decide)).2 mixSetterImpl rfl

/-- C6: for every non-public, non-skip field `f` of type `T`, Setters
emits exactly two consecutive functions: `set_f`, taking the single
parameter `v : T`, assigning `v` into the field and returning nothing,
followed immediately by `f_as_mut`, returning a mutable reference to the
field.  The conclusion makes no reference to `copy` or `as_slice`, so
those directives have no effect on the mutators. -/
theorem C6_setter_pair (inp : DeriveInput) (fs : List Field) (f : Field)
    (hd : inp.data = .structData (.named fs)) (hwf : ∀ g ∈ fs, g.wfAttrs = true)
    (hmem : f ∈ fs) (hpub : isPublicVis f.vis = false)
    (hskip : hasDirective f "skip" = false) :
    ∃ impl pre post, setters inp = .ok impl ∧
      impl.fns = pre ++
        [{ name := "set_" ++ f.ident, selfRef := .refMutSelf, params := [⟨"v", f.ty⟩],
           ret := .unit, body := .assignField f.ident "v" },
         { name := f.ident ++ "_as_mut", selfRef := .refMutSelf, params := [],
           ret := .refMut f.ty, body := .returnFieldRefMut f.ident }] ++ post := by
  have hk : keepField f = true := by simp [keepField, hpub, hskip]
  obtain ⟨pre, post, hpp⟩ := join_map_infix (List.mem_filter.mpr ⟨hmem, hk⟩)
  exact ⟨_, pre, post, setters_ok_impl hd hwf, hpp⟩

/-- Witness for C6 at scenario 3: `Counter { count: u8 }` receives
`set_count(v: u8)` and `count_as_mut() -> &mut u8`, consecutively. -/
theorem C6_witness :
    ∃ impl pre post, setters counterInput = .ok impl ∧
      impl.fns = pre ++
        [{ name := "set_count", selfRef := .refMutSelf, params := [⟨"v", u8Ty⟩],
           ret := .unit, body := .assignField "count" "v" },
         { name := "count_as_mut", selfRef := .refMutSelf, params := [],
           ret := .refMut u8Ty, body := .returnFieldRefMut "count" }] ++ post :=
  C6_setter_pair counterInput [counterField] counterField
    rfl (by decide) (by decide) (by decide) (by decide)

/-- C7 counterexample: a field with a single attribute whose content fails
to parse as a meta item makes the scanner abort with the `parse_meta`
unwrap panic — it does not totally compute `false`. -/
theorem C7_counterexample :
    search_for_attribute ⟨"x", .inherited, [none], u8Ty⟩ "skip" = .error .metaUnwrap :=
  rfl

/-- C7 (amended): provided every attribute of the field parses as a meta
item, the scanner totally computes a boolean (never an error), equal to
"some list attribute has a nested item whose leading token is exactly the
searched identifier"; nested items led by a non-identifier token
(a path-leading `::`) and literal nested items never match.  An attribute
whose content fails to parse as a meta item, however, aborts the scan. -/
theorem C7_scanner_total (f : Field) (tok : String) (h : f.wfAttrs = true) :
    search_for_attribute f tok = .ok (hasDirective f tok) ∧
    (∀ s, nestedMatches tok (.meta true s) = false) ∧
    (∀ s, nestedMatches tok (.lit s) = false) :=
  ⟨search_ok f tok h, fun _ => rfl, fun _ => rfl⟩

/-- Witness for C7 (amended): a well-formed `#[unprolix(copy)]` field
scans to `ok true` for `copy`. -/
theorem C7_witness :
    search_for_attribute ⟨"a", .inherited, [unprolixAttr ["copy"]], u8Ty⟩ "copy" = .ok true := by
  have h := (C7_scanner_total ⟨"a", .inherited, [unprolixAttr ["copy"]], u8Ty⟩ "copy"
    (by decide)).1
  rw [h]
  rfl

/-- C8: field declaration order is preserved by all three generations:
the constructor's parameters are the non-defaulted fields in declaration
order, its initializers cover the fields in declaration order, the getters
are emitted in declaration order of the kept fields, and the setter pairs
are emitted in declaration order of the kept fields. -/
theorem C8_declaration_order (inp : DeriveInput) (fs : List Field)
    (hd : inp.data = .structData (.named fs)) (hwf : ∀ f ∈ fs, f.wfAttrs = true) :
    (∃ ps vs, constructor inp = .ok ⟨inp.ident, [newFn inp.ident ps vs]⟩ ∧
       ps.map Param.name = (fs.filter fun f => !hasDirective f "default").map Field.ident ∧
       vs.map FieldValue.member = fs.map Field.ident) ∧
    (∀ impl, getters inp = .ok impl →
       impl.fns.map Fn.name = (fs.filter keepField).map Field.ident) ∧
    (∀ impl, setters inp = .ok impl →
       impl.fns.map Fn.name =
         ((fs.filter keepField).map
           fun f => ["set_" ++ f.ident, f.ident ++ "_as_mut"]).flatten) := by
  refine ⟨⟨_, _, constructor_ok_impl hd hwf, ?_, ?_⟩, ?_, ?_⟩
  · rw [List.map_map]
    rfl
  · rw [List.map_map]
    apply List.map_congr_left
    intro a _
    cases hda : hasDirective a "default" <;> simp [hda]
  · intro impl hok
    obtain ⟨-, hm⟩ := getters_ok_fns hd hwf hok
    exact mapExcept_names hm
  · intro impl hok
    rw [setters_impl_fns hd hwf hok]
    exact setters_names_eq _

def pointGetterImpl : Impl :=
  ⟨"Point", [{ name := "x", selfRef := .refSelf, params := [], ret := .ref u8Ty,
               body := .returnFieldRef "x" },
             { name := "y", selfRef := .refSelf, params := [], ret := .ref u8Ty,
               body := .returnFieldRef "y" }]⟩

def pointSetterImpl : Impl :=
  ⟨"Point", [{ name := "set_x", selfRef := .refMutSelf, params := [⟨"v", u8Ty⟩], ret := .unit,
               body := .assignField "x" "v" },
             { name := "x_as_mut", selfRef := .refMutSelf, params := [], ret := .refMut u8Ty,
               body := .returnFieldRefMut "x" },
             { name := "set_y", selfRef := .refMutSelf, params := [⟨"v", u8Ty⟩], ret := .unit,
               body := .assignField "y" "v" },
             { name := "y_as_mut", selfRef := .refMutSelf, params := [], ret := .refMut u8Ty,
               body := .returnFieldRefMut "y" }]⟩

/-- Witness for C8 at scenario 1's record. -/
theorem C8_witness :
    (∃ ps vs, constructor pointInput = .ok ⟨"Point", [newFn "Point" ps vs]⟩ ∧
       ps.map Param.name = ["x"] ∧ vs.map FieldValue.member = ["x", "y"]) ∧
    pointGetterImpl.fns.map Fn.name = ["x", "y"] ∧
    pointSetterImpl.fns.map Fn.name = ["set_x", "x_as_mut", "set_y", "y_as_mut"] := by
  have h := C8_declaration_order pointInput pointFields rfl (by decide)
  refine ⟨?_, ?_, ?_⟩
  · obtain ⟨ps, vs, hc, hp, hv⟩ := h.1
    exact ⟨ps, vs, hc, hp.trans (by decide), hv.trans (by decide)⟩
  · exact (h.2.1 pointGetterImpl rfl).trans (by decide)
  · exact (h.2.2 pointSetterImpl rfl).trans (by decide)

/-- C9: the scanner ignores the name of the outer grouping attribute: a
directive token nested anywhere inside ANY list-shaped attribute — not
only `unprolix(...)` — makes the directive count as present; for example a
field annotated `#[serde(skip)]` is treated as skip-flagged and receives
no getter. -/
theorem C9_outer_name_ignored (p : SynPath) (pre post : List NestedMeta')
    (fid : String) (v : Vis) (t : Ty) (tok : String) :
    hasDirective ⟨fid, v, [some (.listM p (pre ++ .meta false tok :: post))], t⟩ tok = true ∧
    getters ⟨"W", .structData (.named
        [⟨"secret", .inherited, [some (.listM ⟨false, "serde", []⟩ [.meta false "skip"])],
          u8Ty⟩])⟩
      = .ok ⟨"W", []⟩ := by
  constructor
  · simp [hasDirective, metaScan, nestedMatches]
  · rfl

/-- C10: only fields declared exactly `pub` are excluded as public: a
field with restricted visibility such as `pub(crate)` or `pub(super)` is
treated as non-public and (absent skip) receives its read accessor from
Getters and both write accessors from Setters. -/
theorem C10_restricted_nonpublic (inp : DeriveInput) (fs : List Field) (f : Field)
    (rp : String)
    (hd : inp.data = .structData (.named fs)) (hwf : ∀ g ∈ fs, g.wfAttrs = true)
    (hnd : (fs.map Field.ident).Nodup) (hmem : f ∈ fs)
    (hvis : f.vis = .restricted rp) (hskip : hasDirective f "skip" = false) :
    isPublicVis f.vis = false ∧
    (∀ impl, getters inp = .ok impl →
       (impl.fns.filter fun g => g.body.fieldOf == some f.ident).map Fn.name = [f.ident]) ∧
    (∀ impl, setters inp = .ok impl →
       (impl.fns.filter fun g => g.body.fieldOf == some f.ident).map Fn.name
         = ["set_" ++ f.ident, f.ident ++ "_as_mut"]) := by
  have hpub : isPublicVis f.vis = false := by rw [hvis]; rfl
  have hk : keepField f = true := by simp [keepField, hpub, hskip]
  refine ⟨hpub, ?_, ?_⟩
  · intro impl hok
    obtain ⟨g, _, hname, hfilter⟩ := getters_filter_kept hd hwf hnd hmem hk hok
    rw [hfilter, List.map_cons, List.map_nil, hname]
  · intro impl hok
    rw [setters_impl_fns hd hwf hok]
    have h1 : (((((fs.filter keepField).map setterFnsFor).flatten).filter
        fun g => g.body.fieldOf == some f.ident)) = setterFnsFor f :=
      setters_filter_kept hnd hmem hk
    calc ((⟨inp.ident, ((fs.filter keepField).map setterFnsFor).flatten⟩ : Impl).fns.filter
            fun g => g.body.fieldOf == some f.ident).map Fn.name
        = (setterFnsFor f).map Fn.name := by rw [h1]
      _ = ["set_" ++ f.ident, f.ident ++ "_as_mut"] := rfl

/-- A struct whose single field has `pub(crate)` visibility. -/
def rsField : Field := ⟨"a", .restricted "crate", [], u8Ty⟩

def restrictedInput : DeriveInput := ⟨"R", .structData (.named [rsField])⟩

def rsGetterImpl : Impl :=
  ⟨"R", [{ name := "a", selfRef := .refSelf, params := [], ret := .ref u8Ty,
           body := .returnFieldRef "a" }]⟩

def rsSetterImpl : Impl :=
  ⟨"R", [{ name := "set_a", selfRef := .refMutSelf, params := [⟨"v", u8Ty⟩], ret := .unit,
           body := .assignField "a" "v" },
         { name := "a_as_mut", selfRef := .refMutSelf, params := [], ret := .refMut u8Ty,
           body := .returnFieldRefMut "a" }]⟩

/-- Witness for C10 at `R { pub(crate) a: u8 }`. -/
theorem C10_witness :
    isPublicVis rsField.vis = false ∧
    (rsGetterImpl.fns.filter fun g => g.body.fieldOf == some "a").map Fn.name = ["a"] ∧
    (rsSetterImpl.fns.filter fun g => g.body.fieldOf == some "a").map Fn.name
      = ["set_a", "a_as_mut"] := by
  have h := C10_restricted_nonpublic restrictedInput [rsField] rsField "crate"
    rfl (by decide) (by decide) (by decide) rfl (by decide)
  exact ⟨h.1, h.2.1 rsGetterImpl rfl, h.2.2 rsSetterImpl rfl⟩

end Unprolix
